import Mathlib

/-!
Verification of the withdrawal order-batching function `withdraw` from
`src/codeReview.ts`.

The source is a TypeScript function with two external effects: a DynamoDB
lookup of the account's current PENDING order (`getPendingOrder`) and the
atomic `transactWrite` submission.  Both are modelled as parameters: the
lookup result `pendingOrder : Option TcgOrderDdb` is passed in, and the
write-set that would be submitted to `transactWrite` is returned as data.
The monotonic ULID factory, called once per new order with a fixed
timestamp, is modelled as a function `ulid : Nat -> String` of the call
index.  JavaScript `Array.prototype.slice` (which clamps a negative end
index by adding the array length) is modelled by `jsSlice`.
-/

/-- Order capacity constant `SHIPPING_MAX_ITEMS = 15` from the source. -/
def SHIPPING_MAX_ITEMS : Nat := 15

/-- Enum `InventoryItemStatus` from the source. -/
inductive InventoryItemStatus where
  | UNFULFILLED
  | WITHDRAWING
  | WITHDRAWN
deriving DecidableEq, Repr, Inhabited

/-- Enum `TcgOrderStatus` from the source. -/
inductive TcgOrderStatus where
  | CANCELLED
  | PENDING
  | PROCESSING
  | SHIPPED
deriving DecidableEq, Repr, Inhabited

/-- Type `ShippingAddress` from the source (all fields are strings;
optional fields are `Option String`). -/
structure ShippingAddress where
  firstName : String
  lastName : String
  addressLine1 : String
  addressLine2 : Option String
  locality : String
  region : String
  postalCode : String
  country : String
  phoneNumber : Option String
  countryCode : Option String
deriving DecidableEq, Repr, Inhabited

/-- Type `AccountDdb` from the source. -/
structure AccountDdb where
  pk : String
  shippingAddress : Option ShippingAddress
deriving DecidableEq, Repr, Inhabited

/-- Type `InventoryItemDdb` from the source (the two optional
exchange-transaction ids are irrelevant to every claim and carried as
optional strings). -/
structure InventoryItemDdb where
  pk : String
  sk : String
  exchangeAddTxId : Option String := none
  exchangeRemoveTxId : Option String := none
  createdAt : String
  updatedAt : String
  status : InventoryItemStatus
deriving DecidableEq, Repr, Inhabited

/-- Type `TcgOrderDdb` from the source. -/
structure TcgOrderDdb where
  pk : String
  createdAt : String
  updatedAt : String
  accountId : String
  status : TcgOrderStatus
  shippingAddress : ShippingAddress
  items : List InventoryItemDdb
deriving DecidableEq, Repr, Inhabited

/-- The effect of both `forEach` mutation sites in the source on one item:
`item.status = InventoryItemStatus.WITHDRAWING; item.updatedAt = date.toISOString()`. -/
def markWithdrawing (it : InventoryItemDdb) (now : String) : InventoryItemDdb :=
  { it with status := InventoryItemStatus.WITHDRAWING, updatedAt := now }

/-- Conditioned write operations pushed onto `params.TransactItems`.
`updateOrder` is the conditional Update on the ORDER table (condition
`attribute_exists(pk) AND #status = :expectedStatus`, effect: set status,
refresh `updatedAt`, `list_append` the given items); `putOrder` is the
conditional Put on ORDER (condition `attribute_not_exists(pk)`);
`updateItem` is the conditional Update on INVENTORY (condition
`attribute_exists(pk) AND #status = :expectedStatus`, effect: set status
and refresh `updatedAt`). -/
inductive WriteOp where
  | updateOrder (pk : String) (expectedStatus : TcgOrderStatus)
      (newStatus : TcgOrderStatus) (appendItems : List InventoryItemDdb)
      (updatedAt : String)
  | putOrder (order : TcgOrderDdb)
  | updateItem (pk : String) (sk : String)
      (expectedStatus : InventoryItemStatus)
      (newStatus : InventoryItemStatus) (updatedAt : String)
deriving DecidableEq, Repr

/-- Helper `getInventoryItemUpdates` from the source: one conditioned
update per item, precondition UNFULFILLED, effect WITHDRAWING plus a
timestamp refresh. -/
def getInventoryItemUpdates (items : List InventoryItemDdb) (dateStr : String) :
    List WriteOp :=
  items.map (fun item =>
    WriteOp.updateItem item.pk item.sk InventoryItemStatus.UNFULFILLED
      InventoryItemStatus.WITHDRAWING dateStr)

/-- Clamped end index of JavaScript `Array.prototype.slice`: a negative
index counts from the end (`n + stop`, floored at 0), a non-negative one
is capped at `n`. -/
def jsSliceEnd (n : Nat) (stop : Int) : Nat :=
  (if stop < 0 then max ((n : Int) + stop) 0 else min stop (n : Int)).toNat

/-- Clamped start index of JavaScript `Array.prototype.slice`. -/
def jsSliceStart (n : Nat) (start : Int) : Nat :=
  (if start < 0 then max ((n : Int) + start) 0 else min start (n : Int)).toNat

/-- JavaScript `l.slice(start, stop)`: the elements from the clamped start
index (inclusive) to the clamped end index (exclusive). -/
def jsSlice (l : List α) (start stop : Int) : List α :=
  (l.take (jsSliceEnd l.length stop)).drop (jsSliceStart l.length start)

/-- The chunking loop
`for (let i = 0; i < items.length; i += SHIPPING_MAX_ITEMS) push(items.slice(i, i + SHIPPING_MAX_ITEMS))`:
each iteration emits `items.slice(i, i + 15)`, i.e. 15 more elements of the
remaining suffix, so the loop produces consecutive chunks of 15 (the last
one may be shorter).  Structural recursion on a fuel bounded by the list
length (each iteration strictly shortens a non-empty suffix). -/
def chunkListAux : Nat → List α → List (List α)
  | 0, _ => []
  | _, [] => []
  | Nat.succ fuel, l =>
      l.take SHIPPING_MAX_ITEMS :: chunkListAux fuel (l.drop SHIPPING_MAX_ITEMS)

/-- `itemsForNewOrders` computed by the chunking loop in the source. -/
def chunkList (l : List α) : List (List α) :=
  chunkListAux l.length l

/-- Errors thrown by `withdraw`: `"Cannot withdraw that many items at once"`
and `"shipping address invalid"`. -/
inductive WithdrawError where
  | TooManyItems
  | MissingShippingAddress
deriving DecidableEq, Repr

/-- One entry of the `orders` array returned by the source:
`{ tcgOrder, items }` where `items` is the batch just assigned to that
order. -/
structure OrderView where
  tcgOrder : TcgOrderDdb
  items : List InventoryItemDdb
deriving DecidableEq, Repr

/-- The successful result of `withdraw`: the returned `{ orders, account }`
projection together with the write-set submitted to `transactWrite`
(`params.TransactItems` at the moment of submission). -/
structure WithdrawOk where
  orders : List OrderView
  account : AccountDdb
  writes : List WriteOp
deriving DecidableEq, Repr

/-- The `if (pendingOrder)` branch of the source.  `remainder` is
`pendingOrder.items.length - SHIPPING_MAX_ITEMS` (an integer, negative for
a pending order below capacity), `i = items.slice(0, remainder)`, and the
status flips to PROCESSING exactly when `remainder === i.length`.  The
source mutates the items of `i` in place (status WITHDRAWING, fresh
timestamp) before pushing them onto `pendingOrder.items` and before
`transactWrite` runs, so the order record, the returned view and the
`:orderItems` value in the submitted Update all hold the marked items;
`iMut` is that marked list.  Returns the pushed `orders` entry and the
write operations pushed for this branch, in source order. -/
def pendingBranch (po : TcgOrderDdb) (items : List InventoryItemDdb)
    (now : String) : List OrderView × List WriteOp :=
  let remainder : Int := (po.items.length : Int) - (SHIPPING_MAX_ITEMS : Int)
  let i := jsSlice items 0 remainder
  let status := if remainder = (i.length : Int) then TcgOrderStatus.PROCESSING
    else TcgOrderStatus.PENDING
  let iMut := i.map (fun item => markWithdrawing item now)
  let updatedOrder : TcgOrderDdb :=
    { po with status := status, updatedAt := now, items := po.items ++ iMut }
  ([{ tcgOrder := updatedOrder, items := iMut }],
    WriteOp.updateOrder po.pk TcgOrderStatus.PENDING status iMut now
      :: getInventoryItemUpdates i now)

/-- The `for (const itemsForNewOrder of itemsForNewOrders)` loop of the
source, one `(orders entry, pushed write ops)` pair per chunk.  Every new
order is created with `status: TcgOrderStatus.PENDING` (the collected
`processingOrderIds` list is never used to change a status, so it is not
modelled).  The chunk's items are mutated in place before `transactWrite`,
so the Put payload and the returned view hold the marked items. -/
def newOrderBranch (accountPk : String) (addr : ShippingAddress)
    (items : List InventoryItemDdb) (now : String) (ulid : Nat → String) :
    List (OrderView × List WriteOp) :=
  (chunkList items).enum.map (fun p =>
    let chunkMut := p.2.map (fun item => markWithdrawing item now)
    let newOrder : TcgOrderDdb :=
      { pk := ulid p.1, createdAt := now, updatedAt := now,
        accountId := accountPk, status := TcgOrderStatus.PENDING,
        shippingAddress := addr, items := chunkMut }
    ({ tcgOrder := newOrder, items := chunkMut },
      WriteOp.putOrder newOrder :: getInventoryItemUpdates p.2 now))

/-- The `withdraw` function of `src/codeReview.ts`, with the pending-order
lookup result and the ULID source passed as parameters and the submitted
write-set returned as data.  Control flow as in the source: length guard,
pending-order branch, shipping-address guard, chunk loop, `transactWrite`,
return `{ orders, account }`. -/
def withdraw (account : AccountDdb) (items : List InventoryItemDdb)
    (pendingOrder : Option TcgOrderDdb) (now : String)
    (ulid : Nat → String) : Except WithdrawError WithdrawOk :=
  if items.length > 200 then Except.error WithdrawError.TooManyItems
  else
    let pendingPart : List OrderView × List WriteOp :=
      match pendingOrder with
      | none => ([], [])
      | some po => pendingBranch po items now
    match account.shippingAddress with
    | none => Except.error WithdrawError.MissingShippingAddress
    | some addr =>
        let newParts := newOrderBranch account.pk addr items now ulid
        Except.ok
          { orders := pendingPart.1 ++ newParts.map Prod.fst,
            account := account,
            writes := pendingPart.2 ++ (newParts.map Prod.snd).flatten }

/-- Placeholder inventory item used only as the (never reached) default of
index lookups in the reference model. -/
def dummyItem : InventoryItemDdb :=
  { pk := "", sk := "", createdAt := "", updatedAt := "",
    status := InventoryItemStatus.UNFULFILLED }

/-- One `forEach` mutation site of the source acting on the caller's array:
each listed index has its entry updated in place to its WITHDRAWING-marked
version (`item.status = WITHDRAWING; item.updatedAt = now`).  Out-of-range
indices never occur in the source (every slice and chunk indexes the input
array), and `List.set` ignores them. -/
def markRefs (store : List InventoryItemDdb) (refs : List Nat) (now : String) :
    List InventoryItemDdb :=
  refs.foldl (fun s r => s.set r (markWithdrawing (s.getD r dummyItem) now)) store

/-- Result of the reference-semantics model of `withdraw`: `result` holds,
per returned order, the positions in the caller's `items` array of the item
objects the source pushes into that order's view (the source copies only
the array, `i.map((item) => item)`, never the item objects, so the view
entries are exactly these references); `callerItems` is the caller's
`items` array at the moment `transactWrite` is invoked, which the source
never touches afterwards, so it is also the array's state when `withdraw`
returns. -/
structure RefsOut where
  result : Except WithdrawError (List (List Nat))
  callerItems : List InventoryItemDdb
deriving Repr

/-- Positions of the items taken by `items.slice(0, remainder)` in the
pending-order branch, as indices into the caller's array of length `n`. -/
def pendingRefs (po : TcgOrderDdb) (n : Nat) : List Nat :=
  jsSlice (List.range n) 0 ((po.items.length : Int) - (SHIPPING_MAX_ITEMS : Int))

/-- The `withdraw` function of `src/codeReview.ts` again, with the caller's
`items` array made an explicit store indexed by position, so that the
in-place `forEach` mutations and the sharing of item objects between the
caller's array and the returned order views are visible.  Control flow and
mutation order exactly as in the source: length guard; pending branch
(slice the index prefix, mutate those entries); shipping-address guard;
chunk loop (mutate each chunk's entries); the orders list holds the
pending-order view's references (when a pending order exists) followed by
one reference list per chunk. -/
def withdrawRefs (account : AccountDdb) (items : List InventoryItemDdb)
    (pendingOrder : Option TcgOrderDdb) (now : String) : RefsOut :=
  if items.length > 200 then
    { result := Except.error WithdrawError.TooManyItems, callerItems := items }
  else
    let n := items.length
    let store1 := match pendingOrder with
      | none => items
      | some po => markRefs items (pendingRefs po n) now
    match account.shippingAddress with
    | none =>
        { result := Except.error WithdrawError.MissingShippingAddress,
          callerItems := store1 }
    | some _ =>
        let chunks := chunkList (List.range n)
        let store2 := chunks.foldl (fun s c => markRefs s c now) store1
        let ordersRefs := (match pendingOrder with
          | none => []
          | some po => [pendingRefs po n]) ++ chunks
        { result := Except.ok ordersRefs, callerItems := store2 }

/-- Concrete shipping address used in the evaluation theorems. -/
def addrA : ShippingAddress :=
  { firstName := "f", lastName := "l", addressLine1 := "a1",
    addressLine2 := none, locality := "loc", region := "r", postalCode := "p",
    country := "c", phoneNumber := none, countryCode := none }

/-- Concrete account with a shipping address. -/
def acctA : AccountDdb := { pk := "acct", shippingAddress := some addrA }

/-- Concrete account without a shipping address. -/
def acctNoAddr : AccountDdb := { pk := "acct", shippingAddress := none }

/-- Concrete UNFULFILLED inventory item with the given primary key. -/
def mkItem (pkv : String) : InventoryItemDdb :=
  { pk := pkv, sk := "sk", createdAt := "t0", updatedAt := "t0",
    status := InventoryItemStatus.UNFULFILLED }

/-- Concrete list of `n` distinct UNFULFILLED items, keys `"0" .. ⟨n-1⟩`. -/
def itemsN (n : Nat) : List InventoryItemDdb :=
  (List.range n).map (fun k => mkItem (toString k))

/-- Concrete existing PENDING order already holding `n` items. -/
def orderWith (n : Nat) : TcgOrderDdb :=
  { pk := "ord", createdAt := "t0", updatedAt := "t0", accountId := "acct",
    status := TcgOrderStatus.PENDING, shippingAddress := addrA,
    items := (List.range n).map (fun k => mkItem ("old" ++ toString k)) }

/-- Concrete stand-in for the monotonic ULID factory. -/
def uidA : Nat → String := fun k => "ulid" ++ toString k

/-- Marking an item WITHDRAWING twice with the same timestamp is the same
as marking it once. -/
theorem markWithdrawing_idem (it : InventoryItemDdb) (now : String) :
    markWithdrawing (markWithdrawing it now) now = markWithdrawing it now := rfl

/-- Unfolding lemma for `markRefs` on a cons. -/
theorem markRefs_cons (store : List InventoryItemDdb) (a : Nat) (rs : List Nat)
    (now : String) :
    markRefs store (a :: rs) now =
      markRefs (store.set a (markWithdrawing (store.getD a dummyItem) now)) rs now := rfl

/-- In-place marking never changes the length of the caller's array. -/
theorem length_markRefs (now : String) :
    ∀ (refs : List Nat) (store : List InventoryItemDdb),
      (markRefs store refs now).length = store.length := by
  intro refs
  induction refs with
  | nil => intro store; rfl
  | cons a rs ih =>
      intro store
      rw [markRefs_cons, ih, List.length_set]

/-- Reading a set index back. -/
theorem getD_set_self (l : List InventoryItemDdb) (i : Nat) (a d : InventoryItemDdb)
    (h : i < l.length) : (l.set i a).getD i d = a := by
  rw [List.getD_eq_getElem?_getD, List.getElem?_set]
  simp [h]

/-- Reading an index other than the set one. -/
theorem getD_set_ne (l : List InventoryItemDdb) (i j : Nat) (a d : InventoryItemDdb)
    (hij : i ≠ j) : (l.set i a).getD j d = l.getD j d := by
  rw [List.getD_eq_getElem?_getD, List.getElem?_set, if_neg hij,
    ← List.getD_eq_getElem?_getD]

/-- In range, `getD` does not depend on the default. -/
theorem getD_default_irrel (l : List InventoryItemDdb) (r : Nat)
    (d e : InventoryItemDdb) (h : r < l.length) : l.getD r d = l.getD r e := by
  rw [List.getD_eq_getElem l d h, List.getD_eq_getElem l e h]

/-- Effect of one `forEach` mutation site on an in-range position of the
caller's array: positions in the ref list are marked, others untouched. -/
theorem getD_markRefs (now : String) :
    ∀ (refs : List Nat) (store : List InventoryItemDdb) (r : Nat)
      (d : InventoryItemDdb), r < store.length →
      (markRefs store refs now).getD r d =
        if r ∈ refs then markWithdrawing (store.getD r d) now
        else store.getD r d := by
  intro refs
  induction refs with
  | nil => intro store r d h; simp [markRefs]
  | cons a rs ih =>
      intro store r d h
      rw [markRefs_cons]
      have hlen : r < (store.set a (markWithdrawing (store.getD a dummyItem) now)).length := by
        rw [List.length_set]; exact h
      rw [ih _ r d hlen]
      by_cases hra : r = a
      · subst hra
        have h1 : (store.set r (markWithdrawing (store.getD r dummyItem) now)).getD r d =
            markWithdrawing (store.getD r d) now := by
          rw [getD_set_self _ _ _ _ h, getD_default_irrel store r dummyItem d h]
        simp only [h1, List.mem_cons, true_or, if_pos (Or.inl rfl)]
        by_cases hrs : r ∈ rs <;> simp only [hrs, if_pos, if_neg, ite_true,
          ite_false, markWithdrawing_idem]
      · have h2 : (store.set a (markWithdrawing (store.getD a dummyItem) now)).getD r d =
            store.getD r d := getD_set_ne _ _ _ _ _ (fun he => hra he.symm)
        simp only [h2, List.mem_cons, hra, false_or]

/-- Marking a concatenation of ref lists is marking one after the other. -/
theorem markRefs_append (store : List InventoryItemDdb) (xs ys : List Nat)
    (now : String) :
    markRefs store (xs ++ ys) now = markRefs (markRefs store xs now) ys now := by
  simp [markRefs, List.foldl_append]

/-- The chunk loop's successive `forEach` mutations amount to one marking
pass over the concatenation of all chunks. -/
theorem foldl_markRefs_flatten (now : String) :
    ∀ (css : List (List Nat)) (store : List InventoryItemDdb),
      css.foldl (fun s c => markRefs s c now) store = markRefs store css.flatten now := by
  intro css
  induction css with
  | nil => intro store; rfl
  | cons c cs ih =>
      intro store
      simp only [List.foldl_cons, List.flatten_cons]
      rw [ih, markRefs_append]

/-- The chunks produced by the loop concatenate back to the chunked list
(fuel version; the fuel is at least the list length). -/
theorem flatten_chunkListAux :
    ∀ (fuel : Nat) (l : List α), l.length ≤ fuel →
      (chunkListAux fuel l).flatten = l := by
  intro fuel
  induction fuel with
  | zero =>
      intro l hl
      have : l = [] := List.eq_nil_of_length_eq_zero (Nat.le_zero.mp hl)
      subst this
      rfl
  | succ fuel ih =>
      intro l hl
      cases l with
      | nil => rfl
      | cons x xs =>
          have hdrop : ((x :: xs).drop SHIPPING_MAX_ITEMS).length ≤ fuel := by
            rw [List.length_drop]
            simp only [List.length_cons] at hl
            simp [SHIPPING_MAX_ITEMS]
            omega
          simp only [chunkListAux, List.flatten_cons, ih _ hdrop,
            List.take_append_drop]

/-- The chunks of the loop concatenate back to the chunked list. -/
theorem chunkList_flatten (l : List α) : (chunkList l).flatten = l :=
  flatten_chunkListAux l.length l le_rfl

/-- Unfolding lemma for one iteration of the chunking loop on a non-empty
remaining suffix. -/
theorem chunkListAux_succ (fuel : Nat) (l : List α) (h : l ≠ []) :
    chunkListAux (fuel + 1) l =
      l.take SHIPPING_MAX_ITEMS :: chunkListAux fuel (l.drop SHIPPING_MAX_ITEMS) := by
  cases l with
  | nil => exact absurd rfl h
  | cons x xs => rfl

/-- Chunking commutes with mapping (fuel version). -/
theorem chunkListAux_map (f : α → β) :
    ∀ (fuel : Nat) (l : List α),
      chunkListAux fuel (l.map f) = (chunkListAux fuel l).map (List.map f) := by
  intro fuel
  induction fuel with
  | zero => intro l; simp [chunkListAux]
  | succ fuel ih =>
      intro l
      cases l with
      | nil => rfl
      | cons x xs =>
          rw [chunkListAux_succ fuel ((x :: xs).map f) (by simp),
            chunkListAux_succ fuel (x :: xs) (by simp)]
          simp only [← List.map_take, ← List.map_drop, ih]
          simp only [List.map_cons]

/-- Chunking commutes with mapping. -/
theorem chunkList_map (f : α → β) (l : List α) :
    chunkList (l.map f) = (chunkList l).map (List.map f) := by
  unfold chunkList
  rw [List.length_map]
  exact chunkListAux_map f l.length l

/-- Reading every position of a list back through `getD` reproduces the
list. -/
theorem range_map_getD (l : List InventoryItemDdb) (d : InventoryItemDdb) :
    (List.range l.length).map (fun r => l.getD r d) = l := by
  apply List.ext_getElem
  · simp
  · intro n h1 h2
    simp only [List.getElem_map, List.getElem_range]
    exact List.getD_eq_getElem l d h2

/-- A slice starting at 0 is a `take` of the clamped end index. -/
theorem jsSlice_zero_start (l : List α) (stop : Int) :
    jsSlice l 0 stop = l.take (jsSliceEnd l.length stop) := by
  have hs : jsSliceStart l.length 0 = 0 := by
    simp [jsSliceStart]
  rw [jsSlice, hs, List.drop_zero]

/-- Projecting only the element out of an enumerated map. -/
theorem enum_map_snd_comp (l : List α) (f : Nat × α → β)
    (g : α → β) (hfg : ∀ p : Nat × α, f p = g p.2) :
    l.enum.map f = l.map g := by
  have h1 : l.enum.map f = l.enum.map (fun p => g p.2) := by
    exact List.map_congr_left (fun p _ => hfg p)
  rw [h1]
  have h2 : (fun p : Nat × α => g p.2) = g ∘ Prod.snd := rfl
  rw [h2, ← List.map_map, List.enum_map_snd]

/-- Claim C1: the claim says every input item ends up referenced by exactly
one returned order, the appended items being removed from the front of the
input before chunking.  The code never removes them: with an existing
12-item PENDING order and 5 submitted items, the item with key "0" (which
the input contains exactly once) is referenced both by the filled existing
order's batch and by the first new order, so it is assigned to two orders. -/
theorem withdraw_assigns_item_to_two_orders :
    ((itemsN 5).filter (fun it => it.pk == "0")).length = 1 ∧
    (withdraw acctA (itemsN 5) (some (orderWith 12)) ("t1") uidA).map (fun ok =>
      ok.orders.map (fun o => (o.items.filter (fun it => it.pk == "0")).length)) =
      Except.ok [1, 1] := ⟨rfl, rfl⟩

/-- Claim C2: the claim says the number of items appended to an existing
PENDING order with n items (1 ≤ n ≤ 14) is min(15 - n, items.length).  The
code computes `items.slice(0, n - 15)` instead: with n = 12 and 5 submitted
items it appends 2 items (the claim demands min(3, 5) = 3), because the
negative slice end -3 drops the last 3 items rather than keeping the first
3. -/
theorem withdraw_append_count_mismatch :
    (withdraw acctA (itemsN 5) (some (orderWith 12)) ("t1") uidA).map (fun ok =>
      ok.orders.map (fun o => o.items.length)) = Except.ok [2, 5] ∧
    Nat.min (SHIPPING_MAX_ITEMS - (orderWith 12).items.length) (itemsN 5).length = 3 :=
  ⟨rfl, rfl⟩

/-- Claim C3: the claim says a full-size chunk of 15 items yields an order
created directly in PROCESSING.  The code creates every new order with
`status: TcgOrderStatus.PENDING` (the `processingOrderIds` list it collects
is never used), so a 15-item chunk yields a 15-item PENDING order. -/
theorem withdraw_full_chunk_created_pending :
    (withdraw acctA (itemsN 15) none ("t1") uidA).map (fun ok =>
      ok.orders.map (fun o => (o.tcgOrder.items.length, o.tcgOrder.status))) =
    Except.ok [(15, TcgOrderStatus.PENDING)] := rfl

/-- Claim C4: the claim says a successful withdrawal leaves at most one
PENDING order for the account.  With no existing order and 16 submitted
items the code creates two new orders, both PENDING (statuses of the
returned orders below), violating Invariant A. -/
theorem withdraw_two_pending_orders :
    (withdraw acctA (itemsN 16) none ("t1") uidA).map (fun ok =>
      ok.orders.map (fun o => o.tcgOrder.status)) =
    Except.ok [TcgOrderStatus.PENDING, TcgOrderStatus.PENDING] := rfl

/-- Claim C5: the claim (spec Scenario 2) says an existing 12-item PENDING
order plus 5 submitted items yields the existing order at 15 items in
PROCESSING and one new 2-item PENDING order.  The code instead appends only
2 items, leaves the existing order at 14 items still PENDING, and creates
one new 5-item PENDING order. -/
theorem withdraw_scenario2_mismatch :
    (withdraw acctA (itemsN 5) (some (orderWith 12)) ("t1") uidA).map (fun ok =>
      ok.orders.map (fun o => (o.tcgOrder.items.length, o.tcgOrder.status))) =
    Except.ok [(14, TcgOrderStatus.PENDING), (5, TcgOrderStatus.PENDING)] := rfl

/-- Claim C6 counterexample: the claim says a missing shipping address must
not abort the call when no new order would be created.  With an empty input
(for which the chunking loop produces no new orders) and no pending order,
the code still throws MissingShippingAddress. -/
theorem withdraw_missing_address_aborts_without_new_orders :
    withdraw acctNoAddr ([]) none ("t1") uidA =
      Except.error WithdrawError.MissingShippingAddress ∧
    chunkList ([] : List InventoryItemDdb) = [] := ⟨rfl, rfl⟩

/-- Claim C6 as amended: whenever the input passes the 200-item guard,
`withdraw` throws MissingShippingAddress exactly when the account's
shipping address is absent, regardless of whether any new order would be
created. -/
theorem withdraw_missing_address_iff (account : AccountDdb)
    (items : List InventoryItemDdb) (pendingOrder : Option TcgOrderDdb)
    (now : String) (u : Nat → String) (h : items.length ≤ 200) :
    (withdraw account items pendingOrder now u =
      Except.error WithdrawError.MissingShippingAddress) ↔
      account.shippingAddress = none := by
  have hlen : ¬ items.length > 200 := by omega
  cases haddr : account.shippingAddress with
  | none => simp [withdraw, hlen, haddr]
  | some a => simp [withdraw, hlen, haddr]

/-- Witness for the amended claim C6 at a concrete input: empty item list,
an existing pending order, account without address. -/
theorem withdraw_missing_address_iff_witness :
    withdraw acctNoAddr ([]) (some (orderWith 3)) ("t1") uidA =
      Except.error WithdrawError.MissingShippingAddress :=
  (withdraw_missing_address_iff acctNoAddr ([]) (some (orderWith 3)) ("t1")
    uidA (by decide)).mpr rfl

/-- Claim C9: `withdraw` throws TooManyItems exactly when the input holds
more than 200 items; the first conjunct quantifies over every lookup result
`pendingOrder`, so the outcome is decided before and independently of the
pending-order lookup, and the second conjunct shows (in the
reference-semantics model) that in that case the caller's array is
untouched and no write-set is built. -/
theorem withdraw_too_many_items_iff (account : AccountDdb)
    (items : List InventoryItemDdb) (pendingOrder : Option TcgOrderDdb)
    (now : String) (u : Nat → String) :
    (withdraw account items pendingOrder now u =
      Except.error WithdrawError.TooManyItems ↔ items.length > 200) ∧
    (items.length > 200 →
      (withdrawRefs account items pendingOrder now).result =
        Except.error WithdrawError.TooManyItems ∧
      (withdrawRefs account items pendingOrder now).callerItems = items) := by
  constructor
  · by_cases hlen : items.length > 200
    · simp [withdraw, hlen]
    · cases haddr : account.shippingAddress <;> simp [withdraw, hlen, haddr]
  · intro hlen
    constructor <;> simp [withdrawRefs, hlen]

/-- Witness for claim C9 at a concrete input of 201 items. -/
theorem withdraw_too_many_items_iff_witness :
    withdraw acctA (itemsN 201) none ("t1") uidA =
      Except.error WithdrawError.TooManyItems ∧
    (withdrawRefs acctA (itemsN 201) none ("t1")).callerItems = itemsN 201 :=
  ⟨(withdraw_too_many_items_iff acctA (itemsN 201) none ("t1") uidA).1.mpr
      (by simp [itemsN]),
    ((withdraw_too_many_items_iff acctA (itemsN 201) none ("t1") uidA).2
      (by simp [itemsN])).2⟩

/-- Net effect on the caller's array of marking some positions and then
marking every position: every entry ends up marked once. -/
theorem markRefs_range_after (items : List InventoryItemDdb) (refs : List Nat)
    (now : String) :
    markRefs (markRefs items refs now) (List.range items.length) now =
      items.map (fun it => markWithdrawing it now) := by
  apply List.ext_getElem
  · rw [length_markRefs, length_markRefs, List.length_map]
  · intro r h1 h2
    have hn : r < items.length := by
      rw [List.length_map] at h2; exact h2
    have hlen1 : r < (markRefs items refs now).length := by
      rw [length_markRefs]; exact hn
    have hmap : (items.map (fun it => markWithdrawing it now)).getD r dummyItem =
        markWithdrawing (items.getD r dummyItem) now := by
      have hm : r < (items.map (fun it => markWithdrawing it now)).length := by
        rw [List.length_map]; exact hn
      rw [List.getD_eq_getElem _ dummyItem hm, List.getElem_map,
        List.getD_eq_getElem _ dummyItem hn]
    rw [← List.getD_eq_getElem _ dummyItem h1, ← List.getD_eq_getElem _ dummyItem h2]
    rw [getD_markRefs now (List.range items.length) _ r dummyItem hlen1]
    rw [if_pos (List.mem_range.mpr hn)]
    rw [getD_markRefs now refs items r dummyItem hn]
    by_cases hr : r ∈ refs
    · rw [if_pos hr, markWithdrawing_idem, hmap]
    · rw [if_neg hr, hmap]

/-- Marking every position of the caller's array marks every entry. -/
theorem markRefs_range (items : List InventoryItemDdb) (now : String) :
    markRefs items (List.range items.length) now =
      items.map (fun it => markWithdrawing it now) := by
  have h := markRefs_range_after items [] now
  rwa [show markRefs items ([] : List Nat) now = items from rfl] at h

/-- Reading every position of a list of known length back through `getD`
reproduces the list. -/
theorem range_map_getD_of_length (M : List InventoryItemDdb) (n : Nat)
    (hM : M.length = n) (d : InventoryItemDdb) :
    (List.range n).map (fun r => M.getD r d) = M := by
  subst hM
  exact range_map_getD M d

/-- Every position taken by the pending-order slice indexes the caller's
array. -/
theorem pendingRefs_lt (po : TcgOrderDdb) (n : Nat) (r : Nat)
    (hr : r ∈ pendingRefs po n) : r < n := by
  have hsub : pendingRefs po n ⊆ List.range n := by
    intro x hx
    unfold pendingRefs jsSlice at hx
    exact List.take_subset _ _ (List.drop_subset _ _ hx)
  exact List.mem_range.mp (hsub hr)

/-- Success shape of the reference model without an existing pending
order. -/
theorem withdrawRefs_ok_none (account : AccountDdb)
    (items : List InventoryItemDdb) (now : String) (addr : ShippingAddress)
    (hlen : ¬ items.length > 200) (haddr : account.shippingAddress = some addr) :
    withdrawRefs account items none now =
      { result := Except.ok (chunkList (List.range items.length)),
        callerItems := markRefs items (List.range items.length) now } := by
  simp only [withdrawRefs, if_neg hlen, haddr]
  rw [foldl_markRefs_flatten, chunkList_flatten]
  simp

/-- Success shape of the reference model with an existing pending order. -/
theorem withdrawRefs_ok_some (account : AccountDdb)
    (items : List InventoryItemDdb) (po : TcgOrderDdb) (now : String)
    (addr : ShippingAddress) (hlen : ¬ items.length > 200)
    (haddr : account.shippingAddress = some addr) :
    withdrawRefs account items (some po) now =
      { result := Except.ok
          (pendingRefs po items.length :: chunkList (List.range items.length)),
        callerItems := markRefs (markRefs items (pendingRefs po items.length) now)
          (List.range items.length) now } := by
  simp only [withdrawRefs, if_neg hlen, haddr]
  rw [foldl_markRefs_flatten, chunkList_flatten]
  simp

/-- Success shape of the value model without an existing pending order. -/
theorem withdraw_ok_none (account : AccountDdb) (items : List InventoryItemDdb)
    (now : String) (u : Nat → String) (addr : ShippingAddress)
    (hlen : ¬ items.length > 200) (haddr : account.shippingAddress = some addr) :
    withdraw account items none now u =
      Except.ok
        { orders := (newOrderBranch account.pk addr items now u).map Prod.fst,
          account := account,
          writes := ((newOrderBranch account.pk addr items now u).map Prod.snd).flatten } := by
  simp [withdraw, hlen, haddr]

/-- Success shape of the value model with an existing pending order. -/
theorem withdraw_ok_some (account : AccountDdb) (items : List InventoryItemDdb)
    (po : TcgOrderDdb) (now : String) (u : Nat → String) (addr : ShippingAddress)
    (hlen : ¬ items.length > 200) (haddr : account.shippingAddress = some addr) :
    withdraw account items (some po) now u =
      Except.ok
        { orders := (pendingBranch po items now).1 ++
            (newOrderBranch account.pk addr items now u).map Prod.fst,
          account := account,
          writes := (pendingBranch po items now).2 ++
            ((newOrderBranch account.pk addr items now u).map Prod.snd).flatten } := by
  simp [withdraw, hlen, haddr]

/-- The per-order item batches returned for the new orders are the chunks
of the input, each with every item marked WITHDRAWING. -/
theorem newOrderBranch_views (accountPk : String) (addr : ShippingAddress)
    (items : List InventoryItemDdb) (now : String) (u : Nat → String) :
    ((newOrderBranch accountPk addr items now u).map Prod.fst).map
        (fun o => o.items) =
      (chunkList items).map
        (fun c => c.map (fun item => markWithdrawing item now)) := by
  unfold newOrderBranch
  rw [List.map_map, List.map_map]
  exact enum_map_snd_comp (chunkList items) _ _ (fun p => rfl)

/-- Dereferencing the chunked position lists through the fully marked
caller's array yields the marked chunks of the input. -/
theorem chunk_deref (items : List InventoryItemDdb) (now : String) :
    (chunkList (List.range items.length)).map (fun refs => refs.map (fun r =>
        (items.map (fun it => markWithdrawing it now)).getD r dummyItem)) =
      (chunkList items).map
        (fun c => c.map (fun item => markWithdrawing item now)) := by
  rw [← chunkList_map, ← chunkList_map]
  congr 1
  exact range_map_getD_of_length (items.map (fun it => markWithdrawing it now))
    items.length (List.length_map items _) dummyItem

/-- Dereferencing the pending-order position list through the fully marked
caller's array yields the batch appended to the existing order. -/
theorem pendingBranch_view_deref (po : TcgOrderDdb)
    (items : List InventoryItemDdb) (now : String) :
    (pendingBranch po items now).1.map (fun o => o.items) =
      [(pendingRefs po items.length).map (fun r =>
        (items.map (fun it => markWithdrawing it now)).getD r dummyItem)] := by
  unfold pendingBranch pendingRefs
  simp only [List.map_cons, List.map_nil]
  congr 1
  rw [jsSlice_zero_start, jsSlice_zero_start, List.length_range]
  rw [List.map_take, List.map_take]
  congr 1
  exact (range_map_getD_of_length (items.map (fun it => markWithdrawing it now))
    items.length (List.length_map items _) dummyItem).symm

/-- Claim C10: on every successful call, the source mutates its input in
place: `callerItems` — the caller's `items` array at the moment the atomic
write is submitted (and at return) — has every entry's status set to
WITHDRAWING and its `updatedAt` set to the operation timestamp (first
conjunct); every position list in the returned orders indexes the caller's
array (second conjunct); and the item batches of the returned order views
are exactly those positions read back through the mutated caller's array,
i.e. the views alias the caller's mutated item objects rather than holding
copies (third conjunct). -/
theorem withdrawRefs_mutates_caller_in_place
    (account : AccountDdb) (items : List InventoryItemDdb)
    (pendingOrder : Option TcgOrderDdb) (now : String) (u : Nat → String)
    (addr : ShippingAddress) (ords : List (List Nat))
    (haddr : account.shippingAddress = some addr)
    (hok : (withdrawRefs account items pendingOrder now).result = Except.ok ords) :
    (withdrawRefs account items pendingOrder now).callerItems =
      items.map (fun it => markWithdrawing it now) ∧
    ords.flatten.all (fun r => decide (r < items.length)) = true ∧
    (withdraw account items pendingOrder now u).map (fun ok =>
        ok.orders.map (fun o => o.items)) =
      Except.ok (ords.map (fun refs => refs.map (fun r =>
        (withdrawRefs account items pendingOrder now).callerItems.getD r dummyItem))) := by
  have hlen : ¬ items.length > 200 := by
    intro hl
    rw [withdrawRefs, if_pos hl] at hok
    exact absurd hok (by simp)
  cases pendingOrder with
  | none =>
      simp only [withdrawRefs_ok_none account items now addr hlen haddr] at hok ⊢
      simp only [Except.ok.injEq] at hok
      subst hok
      refine ⟨markRefs_range items now, ?_, ?_⟩
      · simp only [List.all_eq_true, decide_eq_true_eq]
        intro r hr
        rw [chunkList_flatten] at hr
        exact List.mem_range.mp hr
      · rw [withdraw_ok_none account items now u addr hlen haddr]
        simp only [markRefs_range items now, Except.map]
        rw [newOrderBranch_views, chunk_deref]
  | some po =>
      simp only [withdrawRefs_ok_some account items po now addr hlen haddr] at hok ⊢
      simp only [Except.ok.injEq] at hok
      subst hok
      refine ⟨markRefs_range_after items (pendingRefs po items.length) now, ?_, ?_⟩
      · simp only [List.all_eq_true, decide_eq_true_eq]
        intro r hr
        rw [List.flatten_cons] at hr
        rcases List.mem_append.mp hr with h | h
        · exact pendingRefs_lt po items.length r h
        · rw [chunkList_flatten] at h
          exact List.mem_range.mp h
      · rw [withdraw_ok_some account items po now u addr hlen haddr]
        simp only [markRefs_range_after items (pendingRefs po items.length) now,
          Except.map]
        simp only [List.map_append, List.map_cons, newOrderBranch_views,
          pendingBranch_view_deref, chunk_deref, List.singleton_append]

/-- Witness for claim C10 at a concrete input: three items, no existing
pending order, account with an address; the single returned order
references positions 0, 1, 2 of the caller's array. -/
theorem withdrawRefs_mutates_caller_in_place_witness :
    (withdrawRefs acctA (itemsN 3) none ("t1")).callerItems =
      (itemsN 3).map (fun it => markWithdrawing it ("t1")) ∧
    (([[0, 1, 2]] : List (List Nat)).flatten.all
      (fun r => decide (r < (itemsN 3).length)) = true) ∧
    (withdraw acctA (itemsN 3) none ("t1") uidA).map (fun ok =>
        ok.orders.map (fun o => o.items)) =
      Except.ok (([[0, 1, 2]] : List (List Nat)).map (fun refs => refs.map (fun r =>
        (withdrawRefs acctA (itemsN 3) none ("t1")).callerItems.getD r dummyItem))) :=
  withdrawRefs_mutates_caller_in_place acctA (itemsN 3) none ("t1") uidA addrA
    ([[0, 1, 2]]) rfl rfl

/-- Claim C7: the claim says the submitted write-set contains exactly one
conditioned item-update per item entering WITHDRAWING.  With an existing
12-item PENDING order and 5 submitted items, the item with key "0" is both
appended to the existing order and chunked into the first new order, so
the write-set `getInventoryItemUpdates` produces contains two conditioned
updates keyed on it — DynamoDB rejects a transaction touching the same key
twice. -/
theorem withdraw_duplicate_item_updates :
    (withdraw acctA (itemsN 5) (some (orderWith 12)) ("t1") uidA).map (fun ok =>
      (ok.writes.filter (fun w => match w with
        | WriteOp.updateItem p _ _ _ _ => p == "0"
        | _ => false)).length) = Except.ok 2 := rfl

/-- Claim C8: the claim says an existing PENDING order already at or over
capacity (room ≤ 0) is treated as a fatal internal-consistency fault.  The
code has no such check: with a 16-item PENDING order and 2 submitted items
it proceeds down the ordinary branch, appends one item (`remainder` = 1,
`items.slice(0, 1)`), leaves the order at 17 items — beyond capacity — and
flips its status to PROCESSING, then creates a new 2-item PENDING order
from the full input. -/
theorem withdraw_overfull_pending_order_normal_branch :
    (withdraw acctA (itemsN 2) (some (orderWith 16)) ("t1") uidA).map (fun ok =>
      ok.orders.map (fun o => (o.tcgOrder.items.length, o.tcgOrder.status))) =
    Except.ok [(17, TcgOrderStatus.PROCESSING), (2, TcgOrderStatus.PENDING)] := rfl
